import Mathlib

set_option maxHeartbeats 1000000

/-! # Shallow embedding of the video assembly engine of `src/edit.py`

This file models `create_video_with_audio`, `create_animated_subtitle_clips`,
`concatenate_audioclips` and the module-level configuration of `src/edit.py`.
Durations in seconds are modelled as rationals; an audio file on disk is
modelled by the duration that `AudioFileClip` reports for it.  The single
random draw `random.randint(0, b)` is modelled by an explicit oracle
`rand : ℕ → ℕ` applied to the upper bound `b` (a fixed seed fixes `rand`). -/

/-- Module constant `VIDEO_SPEED = 2.0` (src/edit.py line 27). -/
def VIDEO_SPEED : ℚ := 2

/-- Module constant `BACKGROUND_MUSIC_VOLUME = 0.5` (src/edit.py line 28). -/
def BACKGROUND_MUSIC_VOLUME : ℚ := 1 / 2

/-- Module constant `WORDS_PER_LINE = 4` (src/edit.py line 29). -/
def WORDS_PER_LINE : ℕ := 4

/-- Python `str.lower()`, modelled character by character (the values this
program compares are ASCII). -/
def pyLower (s : String) : String :=
  String.mk (s.toList.map Char.toLower)

/-- Line 26: `USE_CHARACTER_IMAGES = os.getenv("USE_CHARACTER_IMAGES", "yes").lower() == "yes"`.
The argument is the value of the environment variable, `none` when unset. -/
def use_character_images (env : Option String) : Bool :=
  pyLower (env.getD "yes") == "yes"

/-- Python `str.split()` with no separator: split on runs of whitespace,
dropping empty pieces.  `acc` holds the reversed characters of the word
currently being read. -/
def splitWhitespaceAux : List Char → List Char → List String
  | [], acc => if acc = [] then [] else [String.mk acc.reverse]
  | c :: cs, acc =>
    if c.isWhitespace then
      (if acc = [] then [] else [String.mk acc.reverse]) ++ splitWhitespaceAux cs []
    else
      splitWhitespaceAux cs (c :: acc)

/-- `text.split()` as used at line 127. -/
def pySplit (s : String) : List String :=
  splitWhitespaceAux s.toList []

/-- The chunking loop of `create_animated_subtitle_clips` (lines 134–137):
`for i in range(0, num_words, k): chunks.append(words[i:i+k])`.
In the source `k` is the constant `WORDS_PER_LINE = 4`; the `k = 0` case
cannot arise there (Python `range` would reject step 0) and is given a
harmless value only to keep the recursion well founded. -/
def chunkWords (k : ℕ) (ws : List String) : List (List String) :=
  if h : ws = [] ∨ k = 0 then []
  else List.take k ws :: chunkWords k (List.drop k ws)
termination_by ws.length
decreasing_by
  simp only [List.length_drop]
  rcases not_or.mp h with ⟨h1, h2⟩
  exact Nat.sub_lt (List.length_pos.mpr h1) (Nat.pos_of_ne_zero h2)

/-- One animated subtitle clip: the joined chunk text and its display
duration (`time_per_chunk`). -/
structure SubtitleClip where
  text : String
  duration : ℚ
deriving DecidableEq

/-- `create_animated_subtitle_clips(text, duration, video_size)`
(src/edit.py lines 125–159), parametric in the chunk size `k`
(`WORDS_PER_LINE` in the source): split into words, return `[]` for zero
words, otherwise one clip per chunk of `k` words, each displayed for
`duration / len(chunks)`. -/
def create_animated_subtitle_clips (k : ℕ) (text : String) (duration : ℚ) :
    List SubtitleClip :=
  let words := pySplit text
  if words.length = 0 then []
  else
    let chunks := chunkWords k words
    let time_per_chunk := duration / (chunks.length : ℚ)
    chunks.map (fun c => { text := String.intercalate " " c, duration := time_per_chunk })

/-- The start-offset computation of `create_video_with_audio`
(src/edit.py lines 196–204), viewed as a function of the source duration
and the raw segment length: when `source_duration - raw_length > 0` the
offset is `random.randint(0, int(source_duration - raw_length))`, else `0`.
`rand b` models `random.randint(0, b)`. -/
def chooseStartOffset (rand : ℕ → ℕ) (source_duration raw_length : ℚ) : ℕ :=
  if source_duration - raw_length > 0 then
    rand (Int.toNat ⌊source_duration - raw_length⌋)
  else 0

/-- The background segment chosen by `create_video_with_audio`. -/
structure SegmentSelection where
  start_offset : ℕ
  raw_length : ℚ
  warned : Bool
deriving DecidableEq

/-- Background segment selection (src/edit.py lines 193–212):
`video_needed_duration = total_audio_duration / VIDEO_SPEED` is the raw
(pre-speedup) length handed to `subclip`; the warning at line 204 is
printed exactly when `max_start_time ≤ 0`. -/
def selectSegment (rand : ℕ → ℕ) (background_duration total_audio_duration speed : ℚ) :
    SegmentSelection :=
  let needed := total_audio_duration / speed
  { start_offset := chooseStartOffset rand background_duration needed
    raw_length := needed
    warned := decide (background_duration - needed ≤ 0) }

/-- One audio layer of the final mix: an absolute start time and a duration. -/
structure AudioLayer where
  start : ℚ
  duration : ℚ
deriving DecidableEq

/-- The loop body of `concatenate_audioclips` (src/edit.py lines 373–379):
each clip is placed at the running `current_time`, which then advances by
the clip's duration. -/
def assignStarts (t : ℚ) : List ℚ → List AudioLayer
  | [] => []
  | d :: ds => { start := t, duration := d } :: assignStarts (t + d) ds

/-- `concatenate_audioclips(clips)` (src/edit.py lines 368–381): returns
`None` for an empty clip list, otherwise the sequentially timed layers. -/
def concatenate_audioclips (clips : List ℚ) : Option (List AudioLayer) :=
  if clips = [] then none else some (assignStarts 0 clips)

/-- Dialogue layer timing as the specification words it: layer `i` starts at
the sum of the audio durations of all preceding manifest entries and lasts
entry `i`'s duration. -/
def dialogue_layers_spec (durs : List ℚ) : List AudioLayer :=
  (List.range durs.length).map
    (fun i => { start := (durs.take i).sum, duration := durs.getD i 0 })

/-- The background-music layer. `loops` is the number of concatenated full
copies, `pre_truncation_duration` their combined length before
`subclip(0, total_audio_duration)`. -/
structure MusicLayer where
  volume : ℚ
  loops : ℕ
  pre_truncation_duration : ℚ
  duration : ℚ
deriving DecidableEq

/-- Background music handling (src/edit.py lines 297–306): volume scaled by
`BACKGROUND_MUSIC_VOLUME`; if the music is shorter than the dialogue it is
concatenated `int(total / music_duration) + 1` times; in every case the
result is truncated by `subclip(0, total_audio_duration)`. -/
def buildMusicLayer (music_duration total_audio_duration : ℚ) : MusicLayer :=
  let loops :=
    if music_duration < total_audio_duration then
      Int.toNat ⌊total_audio_duration / music_duration⌋ + 1
    else 1
  { volume := BACKGROUND_MUSIC_VOLUME
    loops := loops
    pre_truncation_duration := (loops : ℚ) * music_duration
    duration := total_audio_duration }

/-- One entry of the audio manifest (`audio_metadata.json`), with the
duration its audio file reports. -/
structure ManifestEntry where
  scene_id : ℕ
  speaker : String
  text : String
  duration : ℚ
deriving DecidableEq

/-- A positioned, time-bounded visual layer of the composite. -/
inductive VideoLayer where
  | background (start_offset : ℕ) (raw_length duration : ℚ)
  | caption (text : String) (start duration : ℚ)
  | character (speaker : String) (start duration : ℚ)
deriving DecidableEq

/-- The assets and configuration one `create_video_with_audio` call sees:
the durations of `assets/background.mp4` and `assets/background.mp3`, the
`USE_CHARACTER_IMAGES` flag and whether the two character image files
exist. -/
structure Config where
  background_duration : ℚ
  music_duration : ℚ
  useCharacterImages : Bool
  person1_exists : Bool
  person2_exists : Bool
deriving DecidableEq

/-- The keys of the `character_images` dict (src/edit.py lines 218–238):
populated only when `USE_CHARACTER_IMAGES` is set, one key per character
image file that exists. -/
def characterImages (cfg : Config) : List String :=
  if cfg.useCharacterImages then
    (if cfg.person1_exists then ["Person 1"] else []) ++
      (if cfg.person2_exists then ["Person 2"] else [])
  else []

/-- Lines 259–263: each subtitle clip of an entry starts at the running
`subtitle_current_time`, which advances by the clip's duration. -/
def assignCaptionStarts (t : ℚ) : List SubtitleClip → List VideoLayer
  | [] => []
  | c :: cs => VideoLayer.caption c.text t c.duration :: assignCaptionStarts (t + c.duration) cs

/-- The per-entry loop of `create_video_with_audio` (lines 242–286): for
each manifest entry, its caption layers, then (when `USE_CHARACTER_IMAGES`
is set and the speaker is a key of `character_images`) one character layer
spanning the entry, with the cursor `current_time` advancing by the entry's
audio duration. -/
def entryLayersFrom (useChars : Bool) (chars : List String) (cursor : ℚ) :
    List ManifestEntry → List VideoLayer
  | [] => []
  | e :: rest =>
    assignCaptionStarts cursor (create_animated_subtitle_clips WORDS_PER_LINE e.text e.duration) ++
      (if useChars = true ∧ e.speaker ∈ chars then
        [VideoLayer.character e.speaker cursor e.duration]
      else []) ++
      entryLayersFrom useChars chars (cursor + e.duration) rest

/-- How a `create_video_with_audio` call can fail in this model.
`degenerateInput` is the `DegenerateInputError` of the specification's
error taxonomy; the source never raises it.  `attributeErrorNoneAudio` is
the Python `AttributeError` raised when `concatenate_audioclips` returns
`None` for an empty clip list (line 371) and `CompositeAudioClip` is then
applied to it (line 309). -/
inductive ComposeError where
  | degenerateInput
  | attributeErrorNoneAudio
deriving DecidableEq

/-- The assembled timeline: all visual layers (background first, then the
per-entry layers in manifest order), the dialogue audio layers, the music
layer, and the final duration forced by `set_duration` at line 313. -/
structure Timeline where
  video_layers : List VideoLayer
  dialogue_layers : List AudioLayer
  music : MusicLayer
  final_duration : ℚ
deriving DecidableEq

/-- `create_video_with_audio` (src/edit.py lines 162–347) up to the output
writer: total audio duration, background segment selection, per-entry
caption and character layers, sequential dialogue audio, looped music, and
the final duration forced to `total_audio_duration`. -/
def compose (cfg : Config) (rand : ℕ → ℕ) (manifest : List ManifestEntry) :
    Except ComposeError Timeline :=
  let durs := manifest.map (fun e => e.duration)
  let total := durs.sum
  let seg := selectSegment rand cfg.background_duration total VIDEO_SPEED
  let layers := VideoLayer.background seg.start_offset seg.raw_length total ::
    entryLayersFrom cfg.useCharacterImages (characterImages cfg) 0 manifest
  match concatenate_audioclips durs with
  | none => Except.error ComposeError.attributeErrorNoneAudio
  | some dialogue =>
    Except.ok
      { video_layers := layers
        dialogue_layers := dialogue
        music := buildMusicLayer cfg.music_duration total
        final_duration := total }

/-- A media handle opened during one `create_video_with_audio` call.
`metaAudio i` is the `AudioFileClip` opened for entry `i` in the first
(duration-summing) loop at line 187; `entryAudio i` is the second
`AudioFileClip` opened for the same entry in the per-entry loop at
line 247. -/
inductive Handle where
  | backgroundClip
  | metaAudio (i : ℕ)
  | entryAudio (i : ℕ)
  | musicClip
  | composite
deriving DecidableEq

/-- The media handles `create_video_with_audio` opens for a manifest of `n`
entries: the background video (line 175), the first-loop audio clips
(line 187), the second-loop audio clips (line 247), the background music
(line 298) and the final composite (lines 290 and 310). -/
def openedHandles (n : ℕ) : List Handle :=
  Handle.backgroundClip ::
    ((List.range n).map Handle.metaAudio ++ (List.range n).map Handle.entryAudio ++
      [Handle.musicClip, Handle.composite])

/-- The handles the call closes (lines 334–339).  The cleanup block runs
only after `write_videofile` returns; there is no try/finally, so when
writing (or any earlier step) raises, nothing is closed.  On success it
closes the first-loop audio clips, the background clip and the final
composite — and nothing else. -/
def closedHandles (n : ℕ) (write_succeeded : Bool) : List Handle :=
  if write_succeeded then
    (List.range n).map Handle.metaAudio ++ [Handle.backgroundClip, Handle.composite]
  else []

/-- A sample configuration used for concrete evaluations: 100 s background
video, 20 s music, character images enabled and both image files present. -/
def sampleConfig : Config :=
  { background_duration := 100
    music_duration := 20
    useCharacterImages := true
    person1_exists := true
    person2_exists := true }

/-! ## Helper lemmas about the caption chunking loop -/

theorem chunkWords_nil (k : ℕ) : chunkWords k [] = [] := by
  rw [chunkWords]
  simp

theorem chunkWords_of_ne (k : ℕ) (ws : List String) (hw : ws ≠ []) (hk : k ≠ 0) :
    chunkWords k ws = List.take k ws :: chunkWords k (List.drop k ws) := by
  rw [chunkWords]
  simp [hw, hk]

theorem chunkWords_eq_nil_iff (k : ℕ) (ws : List String) :
    chunkWords k ws = [] ↔ (ws = [] ∨ k = 0) := by
  rw [chunkWords]
  split <;> simp_all

theorem chunkWords_flatten (k : ℕ) (hk : k ≠ 0) (ws : List String) :
    (chunkWords k ws).flatten = ws := by
  induction ws using chunkWords.induct k with
  | case1 ws h =>
    rcases h with h | h
    · subst h
      rw [chunkWords_nil]
      rfl
    · exact absurd h hk
  | case2 ws h ih =>
    rcases not_or.mp h with ⟨hw, _⟩
    rw [chunkWords_of_ne k ws hw hk, List.flatten_cons, ih, List.take_append_drop]

theorem chunkWords_length (k : ℕ) (hk : k ≠ 0) (ws : List String) :
    (chunkWords k ws).length = (ws.length + k - 1) / k := by
  have hkpos : 0 < k := Nat.pos_of_ne_zero hk
  induction ws using chunkWords.induct k with
  | case1 ws h =>
    rcases h with h | h
    · subst h
      rw [chunkWords_nil]
      simp only [List.length_nil, Nat.zero_add]
      exact (Nat.div_eq_of_lt (by omega)).symm
    · exact absurd h hk
  | case2 ws h ih =>
    rcases not_or.mp h with ⟨hw, _⟩
    have hwpos : 0 < ws.length := List.length_pos.mpr hw
    rw [chunkWords_of_ne k ws hw hk]
    simp only [List.length_cons, ih, List.length_drop]
    by_cases hle : ws.length ≤ k
    · have h1 : ws.length - k = 0 := by omega
      rw [h1]
      have h2 : (0 + k - 1) / k = 0 := Nat.div_eq_of_lt (by omega)
      rw [h2]
      exact (Nat.div_eq_of_lt_le (by omega) (by omega)).symm
    · have h1 : ws.length - k + k - 1 = ws.length - 1 := by omega
      have h2 : ws.length + k - 1 = (ws.length - 1) + k := by omega
      rw [h1, h2, Nat.add_div_right _ hkpos]

theorem chunkWords_sizes (k : ℕ) (hk : k ≠ 0) (ws : List String) :
    ∀ c ∈ chunkWords k ws, c ≠ [] ∧ c.length ≤ k := by
  induction ws using chunkWords.induct k with
  | case1 ws h =>
    rcases h with h | h
    · subst h
      rw [chunkWords_nil]
      intro c hc
      exact absurd hc (List.not_mem_nil c)
    · exact absurd h hk
  | case2 ws h ih =>
    rcases not_or.mp h with ⟨hw, _⟩
    rw [chunkWords_of_ne k ws hw hk]
    intro c hc
    rcases List.mem_cons.mp hc with rfl | hc
    · constructor
      · simp [List.take_eq_nil_iff, hw, hk]
      · simpa using min_le_left k ws.length
    · exact ih c hc

theorem chunkWords_full_except_last (k : ℕ) (hk : k ≠ 0) (ws : List String) :
    ∀ i : ℕ, i + 1 < (chunkWords k ws).length →
      ((chunkWords k ws).getD i []).length = k := by
  induction ws using chunkWords.induct k with
  | case1 ws h =>
    rcases h with h | h
    · subst h
      rw [chunkWords_nil]
      intro i hi
      simp at hi
    · exact absurd h hk
  | case2 ws h ih =>
    rcases not_or.mp h with ⟨hw, _⟩
    rw [chunkWords_of_ne k ws hw hk]
    intro i hi
    match i with
    | 0 =>
      have hrest : chunkWords k (List.drop k ws) ≠ [] := by
        intro hnil
        rw [hnil] at hi
        simp at hi
      have hdrop : List.drop k ws ≠ [] := by
        intro hnil
        exact hrest ((chunkWords_eq_nil_iff k _).mpr (Or.inl hnil))
      have hlen : k < ws.length := by
        by_contra hge
        exact hdrop (List.drop_eq_nil_of_le (by omega))
      simpa using by omega
    | i + 1 =>
      simp only [List.length_cons] at hi
      simpa using ih i (by omega)

/-! ## Helper lemmas about audio timing and the per-entry loop -/

theorem assignStarts_eq_map (t : ℚ) (ds : List ℚ) :
    assignStarts t ds = (List.range ds.length).map
      (fun i => { start := t + (ds.take i).sum, duration := ds.getD i 0 }) := by
  induction ds generalizing t with
  | nil => simp [assignStarts]
  | cons d ds ih =>
    rw [assignStarts, ih (t + d), List.length_cons, List.range_succ_eq_map,
      List.map_cons, List.map_map]
    congr 1
    · simp
    · refine List.map_congr_left (fun i _ => ?_)
      simp [Function.comp, add_assoc]

theorem assignStarts_zero_eq_spec (ds : List ℚ) :
    assignStarts 0 ds = dialogue_layers_spec ds := by
  rw [assignStarts_eq_map, dialogue_layers_spec]
  refine List.map_congr_left (fun i _ => ?_)
  simp

theorem assignStarts_map_duration (t : ℚ) (ds : List ℚ) :
    (assignStarts t ds).map (fun a => a.duration) = ds := by
  induction ds generalizing t with
  | nil => rfl
  | cons d ds ih => simp [assignStarts, ih]

theorem dialogue_layers_spec_length (ds : List ℚ) :
    (dialogue_layers_spec ds).length = ds.length := by
  simp [dialogue_layers_spec]

theorem dialogue_layers_spec_sum (ds : List ℚ) :
    ((dialogue_layers_spec ds).map (fun a => a.duration)).sum = ds.sum := by
  rw [← assignStarts_zero_eq_spec, assignStarts_map_duration]

theorem concatenate_audioclips_eq_spec (ds : List ℚ) (h : ds ≠ []) :
    concatenate_audioclips ds = some (dialogue_layers_spec ds) := by
  rw [concatenate_audioclips, if_neg h, assignStarts_zero_eq_spec]

/-- The successful-path equation for `compose` on a non-empty manifest. -/
theorem compose_ok (cfg : Config) (rand : ℕ → ℕ) (m : List ManifestEntry)
    (hm : m ≠ []) :
    compose cfg rand m = Except.ok
      { video_layers := VideoLayer.background
            (selectSegment rand cfg.background_duration
              ((m.map (fun e => e.duration)).sum) VIDEO_SPEED).start_offset
            (selectSegment rand cfg.background_duration
              ((m.map (fun e => e.duration)).sum) VIDEO_SPEED).raw_length
            ((m.map (fun e => e.duration)).sum) ::
          entryLayersFrom cfg.useCharacterImages (characterImages cfg) 0 m
        dialogue_layers := dialogue_layers_spec (m.map (fun e => e.duration))
        music := buildMusicLayer cfg.music_duration ((m.map (fun e => e.duration)).sum)
        final_duration := (m.map (fun e => e.duration)).sum } := by
  have hd : m.map (fun e => e.duration) ≠ [] := by
    simpa [List.map_eq_nil_iff] using hm
  simp only [compose, concatenate_audioclips_eq_spec _ hd]

/-- Caption layers contain no character layer. -/
theorem character_not_mem_assignCaptionStarts (s : String) (st d t : ℚ)
    (subs : List SubtitleClip) :
    VideoLayer.character s st d ∉ assignCaptionStarts t subs := by
  induction subs generalizing t with
  | nil => simp [assignCaptionStarts]
  | cons c cs ih =>
    simp only [assignCaptionStarts, List.mem_cons, not_or]
    exact ⟨by simp, ih _⟩

/-- Any character layer the per-entry loop emits carries a speaker that is
a key of the `character_images` dict. -/
theorem character_mem_entryLayersFrom (u : Bool) (chars : List String) (cur : ℚ)
    (m : List ManifestEntry) (s : String) (st d : ℚ)
    (h : VideoLayer.character s st d ∈ entryLayersFrom u chars cur m) :
    u = true ∧ s ∈ chars := by
  induction m generalizing cur with
  | nil => simp [entryLayersFrom] at h
  | cons e rest ih =>
    simp only [entryLayersFrom, List.append_assoc, List.mem_append] at h
    rcases h with h | h | h
    · exact absurd h (character_not_mem_assignCaptionStarts s st d cur _)
    · by_cases hc : u = true ∧ e.speaker ∈ chars
      · rw [if_pos hc] at h
        simp only [List.mem_singleton, VideoLayer.character.injEq] at h
        rcases h with ⟨rfl, -, -⟩
        exact hc
      · rw [if_neg hc] at h
        simp at h
    · exact ih _ h

/-- Keys of `character_images` are always among the two known speakers. -/
theorem mem_characterImages (cfg : Config) (s : String)
    (h : s ∈ characterImages cfg) : s ∈ (["Person 1", "Person 2"] : List String) := by
  unfold characterImages at h
  split at h
  · rw [List.mem_append] at h
    rcases h with h | h <;> split at h <;> simp_all
  · simp at h

/-- Recognizes caption layers. -/
def isCaption : VideoLayer → Bool
  | VideoLayer.caption _ _ _ => true
  | _ => false

theorem countP_isCaption_assignCaptionStarts (t : ℚ) (subs : List SubtitleClip) :
    (assignCaptionStarts t subs).countP isCaption = subs.length := by
  induction subs generalizing t with
  | nil => rfl
  | cons c cs ih =>
    rw [assignCaptionStarts, List.countP_cons_of_pos _ _ (by rfl), ih, List.length_cons]

/-- The per-entry loop emits exactly the caption layers of each entry's
chunking, independently of speakers and the character-image configuration. -/
theorem countP_isCaption_entryLayersFrom (u : Bool) (chars : List String) (cur : ℚ)
    (m : List ManifestEntry) :
    (entryLayersFrom u chars cur m).countP isCaption =
      (m.map (fun e =>
        (create_animated_subtitle_clips WORDS_PER_LINE e.text e.duration).length)).sum := by
  induction m generalizing cur with
  | nil => rfl
  | cons e rest ih =>
    rw [entryLayersFrom]
    simp only [List.countP_append, countP_isCaption_assignCaptionStarts,
      List.map_cons, List.sum_cons]
    rw [ih]
    by_cases hc : u = true ∧ e.speaker ∈ chars
    · rw [if_pos hc]
      simp [List.countP_cons, isCaption]
    · rw [if_neg hc]
      simp

/-! ## Claim theorems -/

/-- Claim C1, evaluated on the code at the failing input: with background
source duration 100 s, total target playback duration 60 s and speed 2.0,
`create_video_with_audio` computes a raw (pre-speedup) segment length of
60 / 2 = 30 s — it divides the playback duration by the speed instead of
multiplying — so it draws the start offset from the range [0, 70] (the
oracle here returns the upper bound 70) and emits no warning, against the
claimed raw length 120 s, forced offset 0 and warning. -/
theorem C1_raw_length_divided_by_speed :
    (selectSegment (fun b => b) 100 60 2).raw_length = 30 ∧
    (selectSegment (fun b => b) 100 60 2).start_offset = 70 ∧
    (selectSegment (fun b => b) 100 60 2).warned = false := by
  refine ⟨?_, ?_, ?_⟩
  · show (60 : ℚ) / 2 = 30
    norm_num
  · show chooseStartOffset (fun b => b) 100 (60 / 2) = 70
    rw [chooseStartOffset, if_pos (by norm_num)]
    rw [show ⌊(100 : ℚ) - 60 / 2⌋ = 70 by norm_num]
    rfl
  · show decide ((100 : ℚ) - 60 / 2 ≤ 0) = false
    rw [decide_eq_false_iff_not]
    norm_num

/-- Claim C3 counterexample: on the empty manifest the call fails with the
`None`-propagation crash of `concatenate_audioclips` inside audio
compositing, which is not the specification's `DegenerateInputError`. -/
theorem C3_counterexample_not_degenerate_error :
    compose sampleConfig (fun b => b) [] = Except.error ComposeError.attributeErrorNoneAudio ∧
    ComposeError.attributeErrorNoneAudio ≠ ComposeError.degenerateInput :=
  ⟨rfl, by decide⟩

/-- Claim C3 (amended): for every configuration and random oracle, composing
the empty manifest fails — `concatenate_audioclips` returns `None` and the
audio-mix step crashes — so the writer is never reached and no output file
is created; the failure is this crash, not a `DegenerateInputError` raised
before any work begins. -/
theorem C3_empty_manifest_none_crash (cfg : Config) (rand : ℕ → ℕ) :
    compose cfg rand [] = Except.error ComposeError.attributeErrorNoneAudio := rfl

/-- Claim C5 counterexample: on a successful one-entry run the second-loop
audio handle and the music handle are opened but never closed, and when
writing fails nothing at all is closed. -/
theorem C5_counterexample_leaked_handles :
    Handle.entryAudio 0 ∈ openedHandles 1 ∧ Handle.entryAudio 0 ∉ closedHandles 1 true ∧
    Handle.musicClip ∈ openedHandles 1 ∧ Handle.musicClip ∉ closedHandles 1 true ∧
    Handle.backgroundClip ∈ openedHandles 1 ∧ closedHandles 1 false = [] := by
  decide

/-- Claim C5 (amended): handles are released only on the successful exit
path, and then only the first-loop per-entry audio clips, the background
clip and the final composite; the per-entry audio clips of the second loop
and the background-music handle are never released, and when writing
raises, no handle is released at all. -/
theorem C5_cleanup_only_on_success (n : ℕ) :
    closedHandles n false = [] ∧
    closedHandles n true ⊆ openedHandles n ∧
    Handle.musicClip ∉ closedHandles n true ∧
    ∀ i : ℕ, Handle.entryAudio i ∉ closedHandles n true := by
  refine ⟨rfl, ?_, ?_, ?_⟩
  · intro x hx
    unfold closedHandles at hx
    rw [if_pos rfl] at hx
    unfold openedHandles
    rcases List.mem_append.mp hx with h | h
    · rcases List.mem_map.mp h with ⟨i, hi, rfl⟩
      exact List.mem_cons_of_mem _
        (List.mem_append_left _ (List.mem_append_left _ (List.mem_map_of_mem _ hi)))
    · rcases List.mem_cons.mp h with rfl | h
      · exact List.mem_cons_self _ _
      · rcases List.mem_singleton.mp h with rfl
        exact List.mem_cons_of_mem _ (List.mem_append_right _ (by simp))
  · intro hx
    simp [closedHandles] at hx
  · intro i hx
    simp [closedHandles] at hx

/-- Claim C7 counterexample: with source duration 100 s and raw length
120 s the feasible range is empty, the start offset falls back to 0, and
the selected segment extends past the source:
`start_offset + raw_length = 120 > 100`. -/
theorem C7_counterexample_overrun :
    chooseStartOffset (fun b => b) 100 120 = 0 ∧
    ¬ ((chooseStartOffset (fun b => b) 100 120 : ℚ) + 120 ≤ 100) := by
  have h : chooseStartOffset (fun b => b) 100 120 = 0 := by
    rw [chooseStartOffset, if_neg (by norm_num)]
  exact ⟨h, by rw [h]; norm_num⟩

/-- Claim C7 (amended): when `source_duration - raw_length > 0` the start
offset is the uniform draw `randint(0, floor(source_duration - raw_length))`
and then `start_offset + raw_length ≤ source_duration`; otherwise the start
offset is 0 (and the segment may extend past the source). -/
theorem C7_feasible_range_safe (rand : ℕ → ℕ) (hr : ∀ b : ℕ, rand b ≤ b)
    (source raw : ℚ) :
    (source - raw > 0 →
      chooseStartOffset rand source raw = rand (Int.toNat ⌊source - raw⌋) ∧
      (chooseStartOffset rand source raw : ℚ) + raw ≤ source) ∧
    (¬ source - raw > 0 → chooseStartOffset rand source raw = 0) := by
  constructor
  · intro hpos
    rw [chooseStartOffset, if_pos hpos]
    refine ⟨rfl, ?_⟩
    have h0 : (0 : ℤ) ≤ ⌊source - raw⌋ := Int.floor_nonneg.mpr (le_of_lt hpos)
    have h1 : (rand (Int.toNat ⌊source - raw⌋) : ℚ) ≤ ((Int.toNat ⌊source - raw⌋ : ℕ) : ℚ) := by
      exact_mod_cast hr _
    have h2 : ((Int.toNat ⌊source - raw⌋ : ℕ) : ℚ) ≤ source - raw := by
      calc ((Int.toNat ⌊source - raw⌋ : ℕ) : ℚ) = ((⌊source - raw⌋ : ℤ) : ℚ) := by
            exact_mod_cast congrArg (fun z : ℤ => (z : ℚ)) (Int.toNat_of_nonneg h0)
        _ ≤ source - raw := Int.floor_le _
    linarith
  · intro hneg
    rw [chooseStartOffset, if_neg hneg]

/-- Witness for C7 (amended) at source 100 s, raw length 30 s, with the
identity oracle. -/
theorem C7_feasible_range_safe_witness :
    (∀ b : ℕ, (fun x : ℕ => x) b ≤ b) ∧
    (((100 : ℚ) - 30 > 0 →
      chooseStartOffset (fun x => x) 100 30 = (fun x => x) (Int.toNat ⌊(100 : ℚ) - 30⌋) ∧
      (chooseStartOffset (fun x => x) 100 30 : ℚ) + 30 ≤ 100) ∧
    (¬ (100 : ℚ) - 30 > 0 → chooseStartOffset (fun x => x) 100 30 = 0)) :=
  ⟨fun b => le_refl b, C7_feasible_range_safe (fun x => x) (fun b => le_refl b) 100 30⟩

/-- Claim C8: the only nondeterminism of a compose call is the single random
draw for the background start offset; with the same manifest, the same
assets and the same draw function (a fixed seed), two calls produce the
same timeline — in particular identical layer start times and durations. -/
theorem C8_fixed_seed_same_timeline (cfg : Config) (r1 r2 : ℕ → ℕ)
    (m : List ManifestEntry) (h : ∀ b : ℕ, r1 b = r2 b) :
    compose cfg r1 m = compose cfg r2 m := by
  rw [funext h]

/-- Witness for C8 on a concrete one-entry manifest with the identity
oracle used for both calls. -/
theorem C8_fixed_seed_same_timeline_witness :
    (∀ b : ℕ, (fun x : ℕ => x) b = (fun x : ℕ => x) b) ∧
    compose sampleConfig (fun x => x)
        [{ scene_id := 1, speaker := "Person 1", text := "hello there friend", duration := 2 }] =
      compose sampleConfig (fun x => x)
        [{ scene_id := 1, speaker := "Person 1", text := "hello there friend", duration := 2 }] :=
  ⟨fun _ => rfl, C8_fixed_seed_same_timeline sampleConfig _ _ _ (fun _ => rfl)⟩

/-- Claim C10: character overlays are enabled iff the `USE_CHARACTER_IMAGES`
environment variable (defaulting to `"yes"` when unset) lowercases to the
exact string `"yes"`; any other value — including `"true"` and `"1"` —
yields `false`, and with the flag false the per-entry loop emits no
character layer at all. -/
theorem C10_character_overlays_env_gate :
    use_character_images none = true ∧
    use_character_images (some "yes") = true ∧
    use_character_images (some "YES") = true ∧
    use_character_images (some "Yes") = true ∧
    use_character_images (some "true") = false ∧
    use_character_images (some "1") = false ∧
    (∀ s : String, use_character_images (some s) = true ↔ pyLower s = "yes") ∧
    (∀ (chars : List String) (cursor : ℚ) (m : List ManifestEntry) (s : String) (st d : ℚ),
      VideoLayer.character s st d ∉ entryLayersFrom false chars cursor m) := by
  refine ⟨by decide, by decide, by decide, by decide, by decide, by decide, ?_, ?_⟩
  · intro s
    simp [use_character_images]
  · intro chars cursor m s st d hmem
    have hu := (character_mem_entryLayersFrom false chars cursor m s st d hmem).1
    simp at hu

/-- Claim C2: for every non-empty manifest, compose succeeds and its
dialogue-audio layers are timed exactly as the specification words it —
layer `i` starts at the sum of the durations of all preceding entries (the
first at 0) and lasts entry `i`'s duration — the layer durations sum to the
total dialogue duration, and the final output duration is forced to that
total. -/
theorem C2_dialogue_timing (cfg : Config) (rand : ℕ → ℕ) (m : List ManifestEntry)
    (hm : m ≠ []) :
    ∃ t : Timeline, compose cfg rand m = Except.ok t ∧
      t.dialogue_layers = dialogue_layers_spec (m.map (fun e => e.duration)) ∧
      (t.dialogue_layers.map (fun a => a.duration)).sum = (m.map (fun e => e.duration)).sum ∧
      t.final_duration = (m.map (fun e => e.duration)).sum :=
  ⟨_, compose_ok cfg rand m hm, rfl, dialogue_layers_spec_sum _, rfl⟩

/-- Witness for C2 on Scenario A: three entries with durations
[2, 3, 1.5] s give dialogue layers starting at [0, 2, 5] s and total
duration 6.5 s. -/
theorem C2_dialogue_timing_witness :
    (([{ scene_id := 1, speaker := "Person 1", text := "a", duration := 2 },
       { scene_id := 1, speaker := "Person 2", text := "b", duration := 3 },
       { scene_id := 2, speaker := "Person 1", text := "c", duration := 3 / 2 }] :
        List ManifestEntry) ≠ []) ∧
    (∃ t : Timeline, compose sampleConfig (fun b => b)
        [{ scene_id := 1, speaker := "Person 1", text := "a", duration := 2 },
         { scene_id := 1, speaker := "Person 2", text := "b", duration := 3 },
         { scene_id := 2, speaker := "Person 1", text := "c", duration := 3 / 2 }] = Except.ok t ∧
      t.dialogue_layers = dialogue_layers_spec
        (([{ scene_id := 1, speaker := "Person 1", text := "a", duration := 2 },
           { scene_id := 1, speaker := "Person 2", text := "b", duration := 3 },
           { scene_id := 2, speaker := "Person 1", text := "c", duration := 3 / 2 }] :
            List ManifestEntry).map (fun e => e.duration)) ∧
      (t.dialogue_layers.map (fun a => a.duration)).sum =
        (([{ scene_id := 1, speaker := "Person 1", text := "a", duration := 2 },
           { scene_id := 1, speaker := "Person 2", text := "b", duration := 3 },
           { scene_id := 2, speaker := "Person 1", text := "c", duration := 3 / 2 }] :
            List ManifestEntry).map (fun e => e.duration)).sum ∧
      t.final_duration =
        (([{ scene_id := 1, speaker := "Person 1", text := "a", duration := 2 },
           { scene_id := 1, speaker := "Person 2", text := "b", duration := 3 },
           { scene_id := 2, speaker := "Person 1", text := "c", duration := 3 / 2 }] :
            List ManifestEntry).map (fun e => e.duration)).sum) ∧
    dialogue_layers_spec [2, 3, 3 / 2] =
      [{ start := 0, duration := 2 }, { start := 2, duration := 3 },
       { start := 5, duration := 3 / 2 }] := by
  refine ⟨List.cons_ne_nil _ _,
    C2_dialogue_timing sampleConfig (fun b => b) _ (List.cons_ne_nil _ _), ?_⟩
  simp [dialogue_layers_spec, List.range_succ]
  norm_num

/-- Claim C6: the music layer keeps the fixed 0.5 volume factor, reports
duration exactly the total dialogue duration `T`, its concatenated copies
cover at least `T` (so `subclip(0, T)` is within bounds), and when the
asset of duration `m` is shorter than `T` the number of concatenated full
copies is `floor(T / m) + 1`. -/
theorem C6_music_looped_and_truncated (m T : ℚ) (hm : 0 < m) (hT : 0 < T) :
    (buildMusicLayer m T).volume = 1 / 2 ∧
    (buildMusicLayer m T).duration = T ∧
    T ≤ (buildMusicLayer m T).pre_truncation_duration ∧
    (m < T → ((buildMusicLayer m T).loops : ℤ) = ⌊T / m⌋ + 1) := by
  have h0 : (0 : ℤ) ≤ ⌊T / m⌋ := Int.floor_nonneg.mpr (div_nonneg hT.le hm.le)
  refine ⟨rfl, rfl, ?_, ?_⟩
  · show T ≤ ((if m < T then Int.toNat ⌊T / m⌋ + 1 else 1 : ℕ) : ℚ) * m
    by_cases hlt : m < T
    · rw [if_pos hlt]
      have htn : ((Int.toNat ⌊T / m⌋ : ℕ) : ℚ) = ((⌊T / m⌋ : ℤ) : ℚ) := by
        exact_mod_cast congrArg (fun z : ℤ => (z : ℚ)) (Int.toNat_of_nonneg h0)
      have hcast : ((Int.toNat ⌊T / m⌋ + 1 : ℕ) : ℚ) = ((⌊T / m⌋ : ℤ) : ℚ) + 1 := by
        rw [Nat.cast_add, Nat.cast_one, htn]
      rw [hcast]
      have hlt2 : T / m < ((⌊T / m⌋ : ℤ) : ℚ) + 1 := Int.lt_floor_add_one _
      have hmul := mul_lt_mul_of_pos_right hlt2 hm
      rw [div_mul_cancel₀ T (ne_of_gt hm)] at hmul
      linarith
    · rw [if_neg hlt]
      push_cast
      linarith [not_lt.mp hlt]
  · intro hlt
    show ((if m < T then Int.toNat ⌊T / m⌋ + 1 else 1 : ℕ) : ℤ) = ⌊T / m⌋ + 1
    rw [if_pos hlt]
    rw [Nat.cast_add, Nat.cast_one, Int.toNat_of_nonneg h0]

/-- Witness for C6 on Scenario D: a 20 s asset against a 50 s total is
concatenated 3 times (60 s) and then truncated to 50 s. -/
theorem C6_music_looped_and_truncated_witness :
    (0 : ℚ) < 20 ∧ (0 : ℚ) < 50 ∧
    ((buildMusicLayer 20 50).volume = 1 / 2 ∧
     (buildMusicLayer 20 50).duration = 50 ∧
     (50 : ℚ) ≤ (buildMusicLayer 20 50).pre_truncation_duration ∧
     ((20 : ℚ) < 50 → ((buildMusicLayer 20 50).loops : ℤ) = ⌊(50 : ℚ) / 20⌋ + 1)) ∧
    (buildMusicLayer 20 50).loops = 3 ∧
    (buildMusicLayer 20 50).pre_truncation_duration = 60 := by
  refine ⟨by norm_num, by norm_num,
    C6_music_looped_and_truncated 20 50 (by norm_num) (by norm_num), ?_, ?_⟩
  · show (if (20 : ℚ) < 50 then Int.toNat ⌊(50 : ℚ) / 20⌋ + 1 else 1) = 3
    rw [if_pos (by norm_num), show ⌊(50 : ℚ) / 20⌋ = 2 by norm_num]
    rfl
  · show ((if (20 : ℚ) < 50 then Int.toNat ⌊(50 : ℚ) / 20⌋ + 1 else 1 : ℕ) : ℚ) * 20 = 60
    rw [if_pos (by norm_num), show ⌊(50 : ℚ) / 20⌋ = 2 by norm_num,
      show Int.toNat 2 = 2 from rfl]
    norm_num

/-- Claim C9: an entry whose speaker is neither "Person 1" nor "Person 2"
gets no character layer (no character layer with that speaker appears at
all), yet compose succeeds and the entry's caption and dialogue-audio
layers are produced normally: one dialogue layer per manifest entry and
exactly the caption layers of each entry's chunking. -/
theorem C9_unknown_speaker_no_overlay (cfg : Config) (rand : ℕ → ℕ)
    (m : List ManifestEntry) (e : ManifestEntry) (he : e ∈ m)
    (hs : e.speaker ∉ (["Person 1", "Person 2"] : List String)) :
    ∃ t : Timeline, compose cfg rand m = Except.ok t ∧
      (∀ st d : ℚ, VideoLayer.character e.speaker st d ∉ t.video_layers) ∧
      t.dialogue_layers.length = m.length ∧
      t.video_layers.countP isCaption =
        (m.map (fun en =>
          (create_animated_subtitle_clips WORDS_PER_LINE en.text en.duration).length)).sum := by
  have hm : m ≠ [] := List.ne_nil_of_mem he
  refine ⟨_, compose_ok cfg rand m hm, ?_, ?_, ?_⟩
  · intro st d hmem
    rcases List.mem_cons.mp hmem with h | h
    · exact absurd h (by simp)
    · exact hs (mem_characterImages cfg _
        (character_mem_entryLayersFrom _ _ _ _ _ _ _ h).2)
  · simpa using dialogue_layers_spec_length (m.map (fun e => e.duration))
  · dsimp only
    rw [List.countP_cons_of_neg]
    · exact countP_isCaption_entryLayersFrom _ _ _ _
    · simp [isCaption]

/-- Witness for C9 on a one-entry manifest spoken by "Narrator". -/
theorem C9_unknown_speaker_no_overlay_witness :
    ({ scene_id := 1, speaker := "Narrator", text := "hello world", duration := 2 } : ManifestEntry) ∈
      ([{ scene_id := 1, speaker := "Narrator", text := "hello world", duration := 2 }] :
        List ManifestEntry) ∧
    (({ scene_id := 1, speaker := "Narrator", text := "hello world", duration := 2 } :
        ManifestEntry).speaker ∉ (["Person 1", "Person 2"] : List String)) ∧
    (∃ t : Timeline, compose sampleConfig (fun b => b)
        [{ scene_id := 1, speaker := "Narrator", text := "hello world", duration := 2 }] =
          Except.ok t ∧
      (∀ st d : ℚ, VideoLayer.character
        ({ scene_id := 1, speaker := "Narrator", text := "hello world", duration := 2 } :
          ManifestEntry).speaker st d ∉ t.video_layers) ∧
      t.dialogue_layers.length =
        ([{ scene_id := 1, speaker := "Narrator", text := "hello world", duration := 2 }] :
          List ManifestEntry).length ∧
      t.video_layers.countP isCaption =
        (([{ scene_id := 1, speaker := "Narrator", text := "hello world", duration := 2 }] :
          List ManifestEntry).map (fun en =>
            (create_animated_subtitle_clips WORDS_PER_LINE en.text en.duration).length)).sum) :=
  ⟨List.mem_singleton.mpr rfl, by decide,
    C9_unknown_speaker_no_overlay sampleConfig (fun b => b) _ _
      (List.mem_singleton.mpr rfl) (by decide)⟩

/-- The number of chunks is the ceiling of word count over chunk size. -/
theorem chunkWords_length_ceil (k : ℕ) (hk : k ≠ 0) (ws : List String) (hw : ws ≠ []) :
    ((chunkWords k ws).length : ℤ) = ⌈(ws.length : ℚ) / (k : ℚ)⌉ := by
  have hkpos : 0 < k := Nat.pos_of_ne_zero hk
  have hW : 1 ≤ ws.length := List.length_pos.mpr hw
  rw [chunkWords_length k hk ws]
  obtain ⟨z, hz⟩ : ∃ z, (ws.length + k - 1) / k = z := ⟨_, rfl⟩
  rw [hz]
  have hA : z * k ≤ ws.length + k - 1 := by
    rw [← hz]
    exact Nat.div_mul_le_self _ _
  have hB : ws.length + k - 1 < (z + 1) * k := by
    rw [← hz]
    exact (Nat.div_lt_iff_lt_mul hkpos).mp (Nat.lt_succ_self _)
  have hB' : ws.length + k - 1 < z * k + k := by
    calc ws.length + k - 1 < (z + 1) * k := hB
      _ = z * k + k := by ring
  have h1 : ws.length ≤ z * k := by omega
  have h2 : z * k < ws.length + k := by omega
  have hkq : (0 : ℚ) < (k : ℚ) := by exact_mod_cast hkpos
  rw [eq_comm, Int.ceil_eq_iff]
  constructor
  · rw [lt_div_iff₀ hkq]
    push_cast
    have hc : (z : ℚ) * (k : ℚ) < (ws.length : ℚ) + (k : ℚ) := by exact_mod_cast h2
    nlinarith [hc]
  · rw [div_le_iff₀ hkq]
    push_cast
    exact_mod_cast h1

/-- Claim C4: for a line whose text splits into at least one word, chunking
with chunk size `k ≥ 1` produces `(W + k - 1) / k` chunks — the ceiling of
`W / k` — that flatten back to the word sequence in order, every chunk is
non-empty with at most `k` words and every chunk but the last has exactly
`k` words, every clip's display duration is `duration / chunk_count`, and
the display durations sum to exactly the line's duration. -/
theorem C4_caption_chunking (k : ℕ) (text : String) (duration : ℚ)
    (hk : k ≠ 0) (hw : pySplit text ≠ []) :
    (create_animated_subtitle_clips k text duration).length
        = ((pySplit text).length + k - 1) / k ∧
    ((create_animated_subtitle_clips k text duration).length : ℤ)
        = ⌈((pySplit text).length : ℚ) / (k : ℚ)⌉ ∧
    (chunkWords k (pySplit text)).flatten = pySplit text ∧
    (∀ c ∈ chunkWords k (pySplit text), c ≠ [] ∧ c.length ≤ k) ∧
    (∀ i : ℕ, i + 1 < (chunkWords k (pySplit text)).length →
      ((chunkWords k (pySplit text)).getD i []).length = k) ∧
    (∀ s ∈ create_animated_subtitle_clips k text duration,
      s.duration = duration / ((create_animated_subtitle_clips k text duration).length : ℚ)) ∧
    ((create_animated_subtitle_clips k text duration).map (fun s => s.duration)).sum
      = duration := by
  have hlen0 : ¬ ((pySplit text).length = 0) := by
    simpa [List.length_eq_zero] using hw
  have hcas : create_animated_subtitle_clips k text duration =
      (chunkWords k (pySplit text)).map
        (fun c => { text := String.intercalate " " c,
                    duration := duration / ((chunkWords k (pySplit text)).length : ℚ) }) := by
    simp only [create_animated_subtitle_clips, if_neg hlen0]
  have hchne : chunkWords k (pySplit text) ≠ [] := by
    rw [Ne, chunkWords_eq_nil_iff]
    push_neg
    exact ⟨hw, hk⟩
  have hchlen : 0 < (chunkWords k (pySplit text)).length := List.length_pos.mpr hchne
  have hlenq : ((chunkWords k (pySplit text)).length : ℚ) ≠ 0 := by
    exact_mod_cast Nat.pos_iff_ne_zero.mp hchlen
  refine ⟨?_, ?_, chunkWords_flatten k hk _, chunkWords_sizes k hk _,
    chunkWords_full_except_last k hk _, ?_, ?_⟩
  · rw [hcas, List.length_map, chunkWords_length k hk]
  · rw [hcas, List.length_map]
    exact chunkWords_length_ceil k hk _ hw
  · intro s hs
    rw [hcas] at hs
    rcases List.mem_map.mp hs with ⟨c, -, rfl⟩
    rw [hcas, List.length_map]
  · have hmapdur : (create_animated_subtitle_clips k text duration).map (fun s => s.duration)
        = List.replicate (chunkWords k (pySplit text)).length
            (duration / ((chunkWords k (pySplit text)).length : ℚ)) := by
      rw [hcas, List.map_map]
      exact List.map_const' _ _
    rw [hmapdur, List.sum_replicate, nsmul_eq_mul, mul_comm]
    exact div_mul_cancel₀ duration hlenq

/-- Witness for C4 on Scenario B: the 7-word line
"one two three four five six seven" with duration 3.5 s and chunk size 4;
the chunk count (7 + 4 - 1) / 4 evaluates to 2. -/
theorem C4_caption_chunking_witness :
    (4 : ℕ) ≠ 0 ∧
    pySplit "one two three four five six seven" ≠ [] ∧
    ((create_animated_subtitle_clips 4 "one two three four five six seven" (7 / 2)).length
        = ((pySplit "one two three four five six seven").length + 4 - 1) / 4 ∧
    ((create_animated_subtitle_clips 4 "one two three four five six seven" (7 / 2)).length : ℤ)
        = ⌈((pySplit "one two three four five six seven").length : ℚ) / ((4 : ℕ) : ℚ)⌉ ∧
    (chunkWords 4 (pySplit "one two three four five six seven")).flatten
        = pySplit "one two three four five six seven" ∧
    (∀ c ∈ chunkWords 4 (pySplit "one two three four five six seven"),
        c ≠ [] ∧ c.length ≤ 4) ∧
    (∀ i : ℕ, i + 1 < (chunkWords 4 (pySplit "one two three four five six seven")).length →
        ((chunkWords 4 (pySplit "one two three four five six seven")).getD i []).length = 4) ∧
    (∀ s ∈ create_animated_subtitle_clips 4 "one two three four five six seven" (7 / 2),
        s.duration = (7 / 2 : ℚ) /
          ((create_animated_subtitle_clips 4 "one two three four five six seven"
              (7 / 2)).length : ℚ)) ∧
    ((create_animated_subtitle_clips 4 "one two three four five six seven" (7 / 2)).map
        (fun s => s.duration)).sum = (7 / 2 : ℚ)) ∧
    pySplit "one two three four five six seven"
        = ["one", "two", "three", "four", "five", "six", "seven"] ∧
    ((pySplit "one two three four five six seven").length + 4 - 1) / 4 = 2 := by
  refine ⟨by decide, by decide,
    C4_caption_chunking 4 "one two three four five six seven" (7 / 2) (by decide) (by decide),
    by decide, by decide⟩
